import Mathlib

/-!
Verification of the pontifex RPC runtime core (client send path, server
router and dispatch loop, wire framing) against its specification.

The Rust sources are shallowly embedded:
- bytes are natural numbers below 256, byte strings are `List Nat`;
- big-endian integer fields are explicit byte lists (`beBytes`);
- the MessagePack codec (`rmp_serde`, an external collaborator of the
  runtime) is abstracted as encode/decode functions supplied per theorem;
- the client `send` is embedded as a pure function over a `Client.World`
  describing the outcome of each stream primitive, and it also returns
  the trace of performed actions;
- the server connection handler is a pure function from the received
  bytes to the produced reply bytes (or an error);
- machine-integer casts (`as u64`, `usize::try_from`) are modelled for
  the 64-bit enclave target, where `usize::MAX = 2^64 - 1`.
-/

/-! ## Byte-level wire primitives (utils/mod.rs and tokio big-endian I/O) -/

/-- Big-endian byte encoding: `beBytes k n` is the `k`-byte big-endian
representation of `n % 256 ^ k`.  `beBytes 4` embeds `write_u32`,
`beBytes 8` embeds `write_u64` (both big-endian in tokio). -/
def beBytes : Nat → Nat → List Nat
  | 0, _ => []
  | k + 1, n => beBytes k (n / 256) ++ [n % 256]

/-- Big-endian byte decoding, the embedding of `read_u32`/`read_u64`
applied to an already-extracted byte list. -/
def deBE (bs : List Nat) : Nat := bs.foldl (fun acc b => acc * 256 + b) 0

theorem beBytes_length (k n : Nat) : (beBytes k n).length = k := by
  induction k generalizing n with
  | zero => rfl
  | succ k ih => simp [beBytes, ih]

theorem deBE_append_singleton (xs : List Nat) (b : Nat) :
    deBE (xs ++ [b]) = deBE xs * 256 + b := by
  simp [deBE]

theorem deBE_beBytes (k n : Nat) (h : n < 256 ^ k) :
    deBE (beBytes k n) = n := by
  induction k generalizing n with
  | zero =>
    simp [beBytes, deBE]
    omega
  | succ k ih =>
    have hdiv : n / 256 < 256 ^ k := by
      rw [Nat.div_lt_iff_lt_mul (by norm_num)]
      calc n < 256 ^ (k + 1) := h
        _ = 256 ^ k * 256 := by ring
    rw [beBytes, deBE_append_singleton, ih _ hdiv]
    omega

/-- I/O error causes as the embedding distinguishes them.  `eof` is the
unexpected-end-of-stream error a short `read_exact`/`read_u32`/`read_u64`
produces; `invalidInput` is `io::ErrorKind::InvalidInput` produced by the
`usize::try_from` guard in `Stream::read_exact`; `other` covers any other
OS-level cause. -/
inductive IOErr
  | eof
  | invalidInput
  | other (code : Nat)
deriving DecidableEq

/-- Encoding errors of the codec (`rmp_serde::encode::Error`), abstracted. -/
abbrev EncErr := Nat

/-- Decoding errors of the codec (`rmp_serde::decode::Error`), abstracted. -/
abbrev DecErr := Nat

/-- The piece of data being read or written when an error occurred
(utils/mod.rs `CodingKey`). -/
inductive CodingKey
  | length
  | payload
deriving DecidableEq

/-- The `usize::MAX` of the 64-bit enclave target. -/
def USIZE_MAX : Nat := 2 ^ 64 - 1

/-- Embedding of `usize::try_from(size)` for a `u64` size on a target
whose `usize::MAX` is `usizeMax`: succeeds exactly when the value fits. -/
def usize_try_from (usizeMax size : Nat) : Option Nat :=
  if size ≤ usizeMax then some size else none

/-- Embedding of `Stream::read_exact` (utils/mod.rs lines 59-66): convert
the size with `usize::try_from` (failure is `InvalidInput`), then fill a
buffer of exactly that many bytes from the stream; a stream that ends
short of `size` bytes is an `eof` error, never a short success. -/
def Stream.read_exact (usizeMax size : Nat) (input : List Nat) :
    Except IOErr (List Nat) :=
  match usize_try_from usizeMax size with
  | none => .error .invalidInput
  | some n =>
    if n ≤ input.length then .ok (input.take n) else .error .eof

/-- The buffer allocation `Stream::read_exact` performs before reading:
`vec![0; size]` is requested exactly when `usize::try_from` succeeds, and
its size is the full converted length.  `none` means the function returns
the `InvalidInput` error without allocating. -/
def Stream.read_exact_alloc (usizeMax size : Nat) : Option Nat :=
  match usize_try_from usizeMax size with
  | none => none
  | some n => some n

/-! ## Route hashing (lib.rs `Request::type_id`) -/

/-- One step of FNV-1a over a 32-bit accumulator: XOR the byte in, then
multiply by the FNV prime 16777619, wrapping modulo `2 ^ 32`. -/
def fnv1a_step (h b : Nat) : Nat := ((h ^^^ b) * 16777619) % 2 ^ 32

/-- Embedding of `const_fnv1a_hash::fnv1a_hash_32` as called by
`Request::type_id` (lib.rs lines 61-65): fold the FNV-1a step over the
bytes starting from the offset basis 2166136261. -/
def fnv1a_hash_32 (bytes : List Nat) : Nat :=
  bytes.foldl fnv1a_step 2166136261

/-- The UTF-8 bytes of a string, as `str::as_bytes` exposes them. -/
def utf8Bytes (s : String) : List Nat := s.toUTF8.toList.map (fun b => b.toNat)

/-- Embedding of `Request::type_id()`: the 32-bit FNV-1a hash of the
UTF-8 bytes of `ROUTE_ID`. -/
def type_id (routeId : String) : Nat := fnv1a_hash_32 (utf8Bytes routeId)

/-- The FNV-1a 32-bit reference definition, written as the spec words it:
start from offset basis 2166136261; for each byte, XOR the byte into the
hash and multiply by the prime 16777619, reducing modulo `2 ^ 32`. -/
def fnv1a32_spec : Nat → List Nat → Nat
  | h, [] => h
  | h, b :: bs => fnv1a32_spec (((h ^^^ b) * 16777619) % 2 ^ 32) bs

theorem fnv1a_foldl_eq_spec (bytes : List Nat) (h : Nat) :
    bytes.foldl fnv1a_step h = fnv1a32_spec h bytes := by
  induction bytes generalizing h with
  | nil => rfl
  | cons b bs ih => simp [fnv1a32_spec, fnv1a_step, ih]

theorem fnv1a_foldl_lt (bytes : List Nat) (h : Nat) (hh : h < 2 ^ 32) :
    bytes.foldl fnv1a_step h < 2 ^ 32 := by
  induction bytes generalizing h with
  | nil => simpa using hh
  | cons b bs ih =>
    exact ih _ (Nat.mod_lt _ (by norm_num))

example : beBytes 4 (2 ^ 32 - 1) = [255, 255, 255, 255] := by decide
example : deBE (beBytes 8 300) = 300 := deBE_beBytes 8 300 (by norm_num)

/-! ## Server (server.rs): errors, type-erased handlers, router, dispatch -/

namespace Server

/-- Errors of the server (server.rs `Error`), including the
feature-gated `NsmConnect` variant. -/
inductive Error
  | bind (e : IOErr)
  | accept (e : IOErr)
  | nsmConnect (e : IOErr)
  | encoding (e : EncErr)
  | decoding (e : DecErr)
  | writing (k : CodingKey) (e : IOErr)
  | reading (k : CodingKey) (e : IOErr)
  | unknownRequest (hash : Nat)
deriving DecidableEq

/-- A lowercase hexadecimal digit. -/
def hexDigit (n : Nat) : Char :=
  if n < 10 then Char.ofNat (48 + n) else Char.ofNat (87 + n)

/-- `n` rendered as exactly `w` lowercase hexadecimal digits,
zero-padded, as the format specifier `{0:08x}` renders a `u32` when
`w = 8`. -/
def hexPad : Nat → Nat → List Char
  | 0, _ => []
  | w + 1, n => hexPad w (n / 16) ++ [hexDigit (n % 16)]

/-- The display string of the `UnknownRequest` error, from its
`#[error("Unknown request type: 0x{0:08x}")]` attribute. -/
def unknownRequestMessage (hash : Nat) : String :=
  "Unknown request type: 0x" ++ String.mk (hexPad 8 hash)

/-- The shape of a stored type-erased handler (`Box<dyn Handler<S>>`):
from the shared state and the remaining bytes of the stream it produces
its result together with the bytes it wrote to the stream.  In this
byte-level model stream writes are the output list (they do not fail);
reads fail when the input is exhausted. -/
def HandlerE (S : Type) : Type :=
  S → List Nat → Except Error Unit × List Nat

/-- Embedding of `TypedHandler::handle` (server.rs lines 107-153): read
the `u64` request length (big-endian, 8 bytes; short stream is a
`Reading(Length)` error), `read_exact` that many payload bytes
(`Reading(Payload)` on failure), decode them to the request type
(`Decoding` on failure), invoke the user handler on `(state, request)`,
encode the response (`Encoding` on failure), then write the `u64`
response length followed by the response bytes. -/
def TypedHandler.handle {S α β : Type}
    (decReq : List Nat → Except DecErr α)
    (encResp : β → Except EncErr (List Nat))
    (handler : S → α → β) :
    HandlerE S := fun state input =>
  if input.length < 8 then
    (.error (.reading .length .eof), [])
  else
    let len := deBE (input.take 8)
    match Stream.read_exact USIZE_MAX len (input.drop 8) with
    | .error e => (.error (.reading .payload e), [])
    | .ok payload =>
      match decReq payload with
      | .error e => (.error (.decoding e), [])
      | .ok request =>
        let response := handler state request
        match encResp response with
        | .error e => (.error (.encoding e), [])
        | .ok responseBytes =>
          (.ok (), beBytes 8 responseBytes.length ++ responseBytes)

/-- Association-list lookup with the semantics of `HashMap::get` on the
route map. -/
def findRoute {H : Type} (k : Nat) : List (Nat × H) → Option H
  | [] => none
  | (k', h) :: rest => if k' = k then some h else findRoute k rest

/-- Association-list insertion with the semantics of `HashMap::insert`:
an existing entry under the same key is replaced by the new value. -/
def insertRoute {H : Type} (k : Nat) (h : H) : List (Nat × H) → List (Nat × H)
  | [] => [(k, h)]
  | (k', h') :: rest =>
    if k' = k then (k, h) :: rest else (k', h') :: insertRoute k h rest

/-- Embedding of `Router<S>` (server.rs lines 181-184): the route map
from 32-bit type ids to type-erased handlers, and the shared state. -/
structure Router (S : Type) where
  routes : List (Nat × HandlerE S)
  state : S

/-- Embedding of `Router::new` (server.rs lines 201-206). -/
def Router.new : Router Unit := ⟨[], ()⟩

/-- Embedding of `Router::with_state` (server.rs lines 232-237). -/
def Router.with_state {S : Type} (s : S) : Router S := ⟨[], s⟩

/-- Embedding of `Router::route` (server.rs lines 256-284): compute the
type id of the request type's `ROUTE_ID`, and insert the boxed
type-erased handler into the map under it.  The source performs no
presence check: `self.routes.insert(type_id, boxed)`. -/
def Router.route {S : Type} (r : Router S) (routeId : String)
    (h : HandlerE S) : Router S :=
  { r with routes := insertRoute (type_id routeId) h r.routes }

/-- Embedding of `handle_connection` (server.rs lines 330-356): read the
`u32` type id (big-endian, 4 bytes; a short stream is a
`Reading(Length)` error), look the handler up, fail with
`UnknownRequest` — writing nothing — when absent, and otherwise delegate
to the type-erased handler with a clone of the state handle. -/
def handle_connection {S : Type} (router : Router S) (input : List Nat) :
    Except Error Unit × List Nat :=
  if input.length < 4 then
    (.error (.reading .length .eof), [])
  else
    let typeId := deBE (input.take 4)
    match findRoute typeId router.routes with
    | none => (.error (.unknownRequest typeId), [])
    | some h => h router.state (input.drop 4)

/-- The outcome of one spawned connection task, as the accept loop sees
it: the task's `handle_connection` result is logged and discarded, and a
panicking task is likewise contained by the runtime. -/
inductive TaskOutcome
  | completed (r : Except Error Unit)
  | panicked

/-- One iteration's event at the accept loop: either `accept` failed, or
a stream was accepted and the spawned task eventually had the given
outcome. -/
abbrev AcceptEvent := Except IOErr TaskOutcome

/-- The observable result of `serve` after consuming a finite sequence
of accept events: either it is still looping (`pending` — the source's
loop has no normal exit), or it returned the given error. -/
inductive ServeResult
  | pending
  | failed (e : Error)
deriving DecidableEq

/-- The accept loop of `Router::serve` (server.rs lines 316-326): each
successful accept spawns a task whose outcome is never awaited and never
propagated; an accept failure is returned as `Error::Accept` via `?`. -/
def serveLoop : List AcceptEvent → ServeResult
  | [] => .pending
  | .error e :: _ => .failed (.accept e)
  | .ok _ :: rest => serveLoop rest

/-- Embedding of `Router::serve` (server.rs lines 293-327): bind the
listener (failure is a terminal `Bind` error), run the optional
secure-module-init hook once (`none` models the feature being disabled;
a hook failure is a terminal `NsmConnect` error), then run the accept
loop. -/
def serve (bindRes : Except IOErr Unit)
    (nsmHook : Option (Except IOErr Unit))
    (accepts : List AcceptEvent) : ServeResult :=
  match bindRes with
  | .error e => .failed (.bind e)
  | .ok _ =>
    match nsmHook with
    | some (.error e) => .failed (.nsmConnect e)
    | _ => serveLoop accepts

end Server

/-! ## Client (client.rs): errors, actions, the send path -/

namespace Client

/-- Errors of the client (client.rs `Error`). -/
inductive Error
  | connection (e : IOErr)
  | encoding (e : EncErr)
  | decoding (e : DecErr)
  | writing (k : CodingKey) (e : IOErr)
  | reading (k : CodingKey) (e : IOErr)
deriving DecidableEq

/-- The primitive steps `send` can perform, in the order it attempts
them; recorded as a trace.  `writeU32` carries the route hash written,
`writeU64` the length written, `writeAll` the payload bytes written,
`readExact` the number of bytes requested, and `decode` the bytes
handed to the codec. -/
inductive Action
  | connect
  | writeU32 (n : Nat)
  | encode
  | writeU64 (n : Nat)
  | writeAll (bs : List Nat)
  | readU64
  | readExact (n : Nat)
  | decode (bs : List Nat)
deriving DecidableEq

/-- The environment of one `send` call: the outcome of establishing the
connection and of each stream primitive `send` may invoke.  On the
64-bit target a `usize` length always fits in `u64`, so the
`len() as u64` cast is the identity and lengths are passed through. -/
structure World where
  connect : Except IOErr Unit
  writeU32 : Nat → Except IOErr Unit
  writeU64 : Nat → Except IOErr Unit
  writeAll : List Nat → Except IOErr Unit
  readU64 : Except IOErr Nat
  readExact : Nat → Except IOErr (List Nat)

/-- Embedding of `send` (client.rs lines 73-126): connect
(`Connection` on failure), write the `u32` type id (`Writing(Length)`
on failure), encode the request (`Encoding` on failure), write the
`u64` payload length (`Writing(Length)` on failure) then the payload
bytes (`Writing(Payload)` on failure), read the `u64` response length
(`Reading(Length)` on failure), `read_exact` that many bytes
(`Reading(Payload)` on failure), and decode them to the response type
(`Decoding` on failure).  Returns the result together with the trace
of attempted actions. -/
def send {ρ : Type} (typeId : Nat) (encodeReq : Except EncErr (List Nat))
    (decodeResp : List Nat → Except DecErr ρ) (w : World) :
    Except Error ρ × List Action :=
  match w.connect with
  | .error e => (.error (.connection e), [.connect])
  | .ok _ =>
    match w.writeU32 typeId with
    | .error e =>
      (.error (.writing .length e), [.connect, .writeU32 typeId])
    | .ok _ =>
      match encodeReq with
      | .error e =>
        (.error (.encoding e), [.connect, .writeU32 typeId, .encode])
      | .ok requestBytes =>
        match w.writeU64 requestBytes.length with
        | .error e =>
          (.error (.writing .length e),
           [.connect, .writeU32 typeId, .encode,
            .writeU64 requestBytes.length])
        | .ok _ =>
          match w.writeAll requestBytes with
          | .error e =>
            (.error (.writing .payload e),
             [.connect, .writeU32 typeId, .encode,
              .writeU64 requestBytes.length, .writeAll requestBytes])
          | .ok _ =>
            match w.readU64 with
            | .error e =>
              (.error (.reading .length e),
               [.connect, .writeU32 typeId, .encode,
                .writeU64 requestBytes.length, .writeAll requestBytes,
                .readU64])
            | .ok len =>
              match w.readExact len with
              | .error e =>
                (.error (.reading .payload e),
                 [.connect, .writeU32 typeId, .encode,
                  .writeU64 requestBytes.length, .writeAll requestBytes,
                  .readU64, .readExact len])
              | .ok responseBytes =>
                ((match decodeResp responseBytes with
                  | .error e => .error (.decoding e)
                  | .ok v => .ok v),
                 [.connect, .writeU32 typeId, .encode,
                  .writeU64 requestBytes.length, .writeAll requestBytes,
                  .readU64, .readExact len, .decode responseBytes])

/-- The bytes a trace's write actions put on the wire: `write_u32`
writes 4 big-endian bytes, `write_u64` writes 8, `write_all` writes the
buffer. -/
def writtenBytes : List Action → List Nat
  | [] => []
  | .writeU32 n :: rest => beBytes 4 n ++ writtenBytes rest
  | .writeU64 n :: rest => beBytes 8 n ++ writtenBytes rest
  | .writeAll bs :: rest => bs ++ writtenBytes rest
  | _ :: rest => writtenBytes rest

/-- The world of a `send` call whose connection and writes succeed and
whose reads are served, in order, from the reply bytes `responseWire`
the server wrote: `read_u64` consumes the first 8 bytes (failing on a
shorter wire) and the subsequent `read_exact` draws from the rest. -/
def wireWorld (responseWire : List Nat) : World where
  connect := .ok ()
  writeU32 := fun _ => .ok ()
  writeU64 := fun _ => .ok ()
  writeAll := fun _ => .ok ()
  readU64 :=
    if 8 ≤ responseWire.length then .ok (deBE (responseWire.take 8))
    else .error .eof
  readExact := fun n => Stream.read_exact USIZE_MAX n (responseWire.drop 8)

end Client

/-! ## Stream-release model (utils/mod.rs `impl Drop for Stream`) -/

/-- Directions of a socket shutdown (`std::net::Shutdown`). -/
inductive ShutdownDir
  | read
  | write
  | both
deriving DecidableEq

/-- Observable events on the underlying socket at release time. -/
inductive StreamEvent
  | shutdown (d : ShutdownDir)
deriving DecidableEq

/-- Embedding of `impl Drop for Stream` (utils/mod.rs lines 85-89):
`_ = self.stream.shutdown(Shutdown::Both);` — a full-duplex shutdown is
initiated, and its result (`shutdownRes`, success or any error) is
discarded.  The produced events do not depend on `shutdownRes`. -/
def Stream.dropShutdown (_shutdownRes : Except IOErr Unit) : List StreamEvent :=
  [.shutdown .both]

/-- How a scope that owns a `Stream` can exit: normal return, early
return with an error, or a panic that unwinds through it. -/
inductive ExitKind (ρ ε : Type)
  | ok (r : ρ)
  | err (e : ε)
  | panicked

/-- Rust's drop glue for a scope owning a `Stream`: whichever way the
scope exits, `Drop::drop` runs on the stream before its storage is
released, and the exit value is passed through unchanged. -/
def scopedExit {ρ ε : Type} (exitPath : ExitKind ρ ε)
    (shutdownRes : Except IOErr Unit) : ExitKind ρ ε × List StreamEvent :=
  (exitPath, Stream.dropShutdown shutdownRes)

/-- `send` together with the drop glue of its local `stream` variable:
the stream-release events follow the primary result on every path. -/
def Client.send_scoped {ρ : Type} (typeId : Nat)
    (encodeReq : Except EncErr (List Nat))
    (decodeResp : List Nat → Except DecErr ρ) (w : Client.World)
    (shutdownRes : Except IOErr Unit) :
    (Except Client.Error ρ × List Client.Action) × List StreamEvent :=
  (Client.send typeId encodeReq decodeResp w, Stream.dropShutdown shutdownRes)

/-! ## Helper lemmas -/

theorem deBE_beBytes32 (n : Nat) (h : n < 2 ^ 32) :
    deBE (beBytes 4 n) = n :=
  deBE_beBytes 4 n (by norm_num at h ⊢; exact h)

theorem deBE_beBytes64 (n : Nat) (h : n < 2 ^ 64) :
    deBE (beBytes 8 n) = n :=
  deBE_beBytes 8 n (by norm_num at h ⊢; exact h)

/-- Dispatch of a well-formed frame to a registered handler. -/
theorem Server.handle_connection_found {S : Type} (router : Server.Router S)
    (k : Nat) (hk : k < 2 ^ 32) (rest : List Nat) (h : Server.HandlerE S)
    (hfind : Server.findRoute k router.routes = some h) :
    Server.handle_connection router (beBytes 4 k ++ rest) =
      h router.state rest := by
  have hlen4 : (beBytes 4 k).length = 4 := beBytes_length 4 k
  have htake : (beBytes 4 k ++ rest).take 4 = beBytes 4 k := List.take_left' hlen4
  have hdrop : (beBytes 4 k ++ rest).drop 4 = rest := List.drop_left' hlen4
  have hlen : ¬ (beBytes 4 k ++ rest).length < 4 := by
    simp [hlen4]
  simp only [Server.handle_connection, hlen, if_false, htake, hdrop,
    deBE_beBytes32 k hk, hfind]

/-- Behaviour of a typed handler on a well-formed request frame. -/
theorem Server.TypedHandler.handle_frame {S α β : Type}
    (decReq : List Nat → Except DecErr α)
    (encResp : β → Except EncErr (List Nat))
    (handler : S → α → β) (state : S) (payload : List Nat)
    (hlen : payload.length < 2 ^ 64) :
    Server.TypedHandler.handle decReq encResp handler state
        (beBytes 8 payload.length ++ payload) =
      (match decReq payload with
       | .error e => (.error (.decoding e), [])
       | .ok request =>
         match encResp (handler state request) with
         | .error e => (.error (.encoding e), [])
         | .ok responseBytes =>
           (.ok (), beBytes 8 responseBytes.length ++ responseBytes)) := by
  have hlen8 : (beBytes 8 payload.length).length = 8 := beBytes_length 8 _
  have htake : (beBytes 8 payload.length ++ payload).take 8 =
      beBytes 8 payload.length := List.take_left' hlen8
  have hdrop : (beBytes 8 payload.length ++ payload).drop 8 = payload :=
    List.drop_left' hlen8
  have hnlt : ¬ (beBytes 8 payload.length ++ payload).length < 8 := by
    simp [hlen8]
  have hread : Stream.read_exact USIZE_MAX payload.length payload =
      .ok payload := by
    have hle : payload.length ≤ USIZE_MAX := by
      simp only [USIZE_MAX]; omega
    simp [Stream.read_exact, usize_try_from, hle]
  simp only [Server.TypedHandler.handle, hnlt, if_false, htake, hdrop,
    deBE_beBytes64 _ hlen, hread]

theorem Server.findRoute_insertRoute_self {H : Type} (k : Nat) (h : H)
    (l : List (Nat × H)) :
    Server.findRoute k (Server.insertRoute k h l) = some h := by
  induction l with
  | nil => simp [Server.insertRoute, Server.findRoute]
  | cons p rest ih =>
    by_cases hp : p.1 = k
    · simp [Server.insertRoute, hp, Server.findRoute]
    · simp [Server.insertRoute, hp, Server.findRoute, ih]

theorem Server.mem_keys_insertRoute {H : Type} (k x : Nat) (h : H)
    (l : List (Nat × H)) :
    x ∈ (Server.insertRoute k h l).map Prod.fst ↔
      x = k ∨ x ∈ l.map Prod.fst := by
  induction l with
  | nil => simp [Server.insertRoute]
  | cons p rest ih =>
    by_cases hp : p.1 = k
    · subst hp
      simp [Server.insertRoute]
    · simp only [Server.insertRoute, hp, if_false, List.map_cons,
        List.mem_cons, ih]
      tauto

theorem Server.insertRoute_keys_nodup {H : Type} (k : Nat) (h : H)
    (l : List (Nat × H)) (hn : (l.map Prod.fst).Nodup) :
    ((Server.insertRoute k h l).map Prod.fst).Nodup := by
  induction l with
  | nil => simp [Server.insertRoute]
  | cons p rest ih =>
    obtain ⟨k', h'⟩ := p
    simp only [List.map_cons, List.nodup_cons] at hn
    by_cases hp : k' = k
    · subst hp
      simpa [Server.insertRoute] using hn
    · simp only [Server.insertRoute, hp, if_false, List.map_cons,
        List.nodup_cons]
      refine ⟨?_, ih hn.2⟩
      rw [Server.mem_keys_insertRoute]
      rintro (rfl | hmem)
      · exact hp rfl
      · exact hn.1 hmem

theorem Server.serveLoop_all_ok (l : List Server.AcceptEvent)
    (h : ∀ x ∈ l, ∃ t, x = .ok t) :
    Server.serveLoop l = .pending := by
  induction l with
  | nil => rfl
  | cons a rest ih =>
    obtain ⟨t, rfl⟩ := h a (by simp)
    exact ih (fun x hx => h x (by simp [hx]))

theorem Server.serveLoop_first_error (front : List Server.AcceptEvent)
    (e : IOErr) (back : List Server.AcceptEvent)
    (h : ∀ x ∈ front, ∃ t, x = .ok t) :
    Server.serveLoop (front ++ .error e :: back) = .failed (.accept e) := by
  induction front with
  | nil => rfl
  | cons a rest ih =>
    obtain ⟨t, rfl⟩ := h a (by simp)
    exact ih (fun x hx => h x (by simp [hx]))

/-- Two accept events agree in status when they are both successes (the
task outcomes may differ arbitrarily) or are the same failure. -/
def Server.AcceptEvent.sameStatus : Server.AcceptEvent → Server.AcceptEvent → Prop
  | .error e, .error e' => e = e'
  | .ok _, .ok _ => True
  | _, _ => False

theorem Server.serveLoop_sameStatus (l l' : List Server.AcceptEvent)
    (h : List.Forall₂ Server.AcceptEvent.sameStatus l l') :
    Server.serveLoop l = Server.serveLoop l' := by
  induction l generalizing l' with
  | nil => cases h; rfl
  | cons a rest ih =>
    cases h with
    | cons hab htail =>
      rename_i b rest'
      cases a with
      | error e =>
        cases b with
        | error e' =>
          simp only [Server.AcceptEvent.sameStatus] at hab
          subst hab
          rfl
        | ok t' => exact absurd hab (by simp [Server.AcceptEvent.sameStatus])
      | ok t =>
        cases b with
        | error e' => exact absurd hab (by simp [Server.AcceptEvent.sameStatus])
        | ok t' => simpa [Server.serveLoop] using ih rest' htail

/-! ## Claim theorems -/

/-- Claim C6: for every request type, the wire route identifier computed
by `type_id()` equals the 32-bit FNV-1a hash of the UTF-8 bytes of its
`ROUTE_ID` (reference definition: offset basis 2166136261, prime
16777619, modulo `2 ^ 32`); the value is below `2 ^ 32`, and it survives
the 4-byte big-endian wire encoding intact, so the value computed
independently by client and server from the same string is equal. -/
theorem type_id_is_fnv1a32 (s : String) :
    type_id s = fnv1a32_spec 2166136261 (utf8Bytes s) ∧
    type_id s < 2 ^ 32 ∧
    deBE (beBytes 4 (type_id s)) = type_id s := by
  have hlt : type_id s < 2 ^ 32 :=
    fnv1a_foldl_lt (utf8Bytes s) 2166136261 (by norm_num)
  exact ⟨fnv1a_foldl_eq_spec (utf8Bytes s) 2166136261, hlt,
    deBE_beBytes32 _ hlt⟩

/-- Claim C7 (divergence exhibited): on the 64-bit enclave target
(`usize::MAX = 2 ^ 64 - 1`), a received length field of `2 ^ 63` passes
the `usize::try_from` guard in `Stream::read_exact`, so the code
allocates a `2 ^ 63`-byte buffer (`vec![0; len]`) before reading, and
only afterwards fails with an end-of-stream reading error; it does not
refuse the length without allocating.  (By contrast, the length
`2 ^ 64`, which is above `usize::MAX`, is refused with `InvalidInput`
and no allocation — the guard is vacuous for every valid `u64`.) -/
theorem oversize_length_is_allocated :
    usize_try_from USIZE_MAX (2 ^ 63) = some (2 ^ 63) ∧
    Stream.read_exact_alloc USIZE_MAX (2 ^ 63) = some (2 ^ 63) ∧
    Stream.read_exact USIZE_MAX (2 ^ 63) [] = .error .eof ∧
    Stream.read_exact_alloc USIZE_MAX (2 ^ 64) = none ∧
    Stream.read_exact USIZE_MAX (2 ^ 64) [] = .error .invalidInput := by
  have h63 : (9223372036854775808 : Nat) ≤ USIZE_MAX := by
    simp only [USIZE_MAX]; norm_num
  have h64 : ¬ (18446744073709551616 : Nat) ≤ USIZE_MAX := by
    simp only [USIZE_MAX]; norm_num
  refine ⟨?_, ?_, ?_, ?_, ?_⟩
  · simp [usize_try_from, h63]
  · simp [Stream.read_exact_alloc, usize_try_from, h63]
  · simp [Stream.read_exact, usize_try_from, h63]
  · simp [Stream.read_exact_alloc, usize_try_from, h64]
  · simp [Stream.read_exact, usize_try_from, h64]

/-- Claim C4: when the first 4 bytes of an accepted connection decode to
a `u32` hash with no registered handler, `handle_connection` ends with
an `UnknownRequest` error recording that hash, writes no bytes to the
stream, and invokes no handler; the error's display string shows the
hash in zero-padded hexadecimal. -/
theorem unknown_route_no_reply {S : Type} (router : Server.Router S)
    (input : List Nat) (hash : Nat)
    (hlen : 4 ≤ input.length)
    (hhash : deBE (input.take 4) = hash)
    (habsent : Server.findRoute hash router.routes = none) :
    Server.handle_connection router input =
      (.error (.unknownRequest hash), []) ∧
    Server.unknownRequestMessage hash =
      "Unknown request type: 0x" ++ String.mk (Server.hexPad 8 hash) := by
  constructor
  · have hnlt : ¬ input.length < 4 := by omega
    simp only [Server.handle_connection, hnlt, if_false, hhash, habsent]
  · rfl

/-- Witness for the unknown-route claim: an empty router receiving a
frame whose hash field decodes to 5 replies with nothing and fails with
`UnknownRequest 5`. -/
theorem unknown_route_no_reply_witness :
    Server.handle_connection Server.Router.new [0, 0, 0, 5] =
      (.error (.unknownRequest 5), []) ∧
    Server.unknownRequestMessage 5 =
      "Unknown request type: 0x" ++ String.mk (Server.hexPad 8 5) :=
  unknown_route_no_reply Server.Router.new [0, 0, 0, 5] 5 (by decide)
    (by decide) rfl

/-- A registered handler that replies `[1]`, used to exhibit silent
replacement. -/
def Server.handlerA : Server.HandlerE Unit := fun _ _ => (.ok (), [1])

/-- A second handler for the same route id that replies `[2]`. -/
def Server.handlerB : Server.HandlerE Unit := fun _ _ => (.ok (), [2])

/-- A router on which the same `route_id` is registered twice. -/
def Server.dupRouter : Server.Router Unit :=
  ((Server.Router.new).route "echo_v1" Server.handlerA).route "echo_v1"
    Server.handlerB

/-- Claim C2 is false on the code: `Router::route` has no error path and
performs no presence check, so registering the same `route_id` a second
time is not rejected — the stored handler is silently replaced.  After
the duplicate registration the router dispatches to the second handler
(reply `[2]`), whereas before it dispatched to the first (reply `[1]`). -/
theorem route_duplicate_not_rejected :
    Server.findRoute (type_id "echo_v1") Server.dupRouter.routes =
      some Server.handlerB ∧
    Server.handle_connection Server.dupRouter
        (beBytes 4 (type_id "echo_v1")) = (.ok (), [2]) ∧
    Server.handle_connection ((Server.Router.new).route "echo_v1"
        Server.handlerA) (beBytes 4 (type_id "echo_v1")) = (.ok (), [1]) := by
  have hk : type_id "echo_v1" < 2 ^ 32 :=
    fnv1a_foldl_lt (utf8Bytes "echo_v1") 2166136261 (by norm_num)
  have hfindB : Server.findRoute (type_id "echo_v1")
      Server.dupRouter.routes = some Server.handlerB := by
    simp [Server.dupRouter, Server.Router.route, Server.Router.new,
      Server.insertRoute, Server.findRoute]
  have hfindA : Server.findRoute (type_id "echo_v1")
      (((Server.Router.new).route "echo_v1" Server.handlerA).routes) =
      some Server.handlerA := by
    simp [Server.Router.route, Server.Router.new, Server.insertRoute,
      Server.findRoute]
  refine ⟨hfindB, ?_, ?_⟩
  · have := Server.handle_connection_found Server.dupRouter
      (type_id "echo_v1") hk [] Server.handlerB hfindB
    simpa [Server.handlerB] using this
  · have := Server.handle_connection_found
      ((Server.Router.new).route "echo_v1" Server.handlerA)
      (type_id "echo_v1") hk [] Server.handlerA hfindA
    simpa [Server.handlerA] using this

/-- Claim C2 as amended: `Router::route` performs no uniqueness or
collision check and has no error path; registering a second handler
under any `route_id` that hashes to the same 32-bit value as an
already-registered one — a colliding distinct `route_id` as well as the
same `route_id` again — silently replaces the stored handler (last
registration wins).  At most one handler is stored per route hash: the
map's key uniqueness is preserved by every registration. -/
theorem route_last_wins {S : Type} (router : Server.Router S)
    (rid rid' : String) (g g' : Server.HandlerE S)
    (hcollide : type_id rid' = type_id rid) :
    Server.findRoute (type_id rid)
      (((router.route rid g).route rid' g').routes) = some g' ∧
    ((router.routes.map Prod.fst).Nodup →
      (((router.route rid g).routes.map Prod.fst)).Nodup) := by
  constructor
  · simp only [Server.Router.route, hcollide]
    exact Server.findRoute_insertRoute_self _ _ _
  · intro hn
    exact Server.insertRoute_keys_nodup _ _ _ hn

/-- Witness for the amended registration claim, on a concrete router
with two handlers registered under the route id "echo_v1". -/
theorem route_last_wins_witness :
    Server.findRoute (type_id "echo_v1") Server.dupRouter.routes =
      some Server.handlerB ∧
    ((((Server.Router.new).route "echo_v1" Server.handlerA).routes.map
        Prod.fst)).Nodup :=
  ⟨(route_last_wins Server.Router.new "echo_v1" "echo_v1" Server.handlerA
      Server.handlerB rfl).1,
   (route_last_wins Server.Router.new "echo_v1" "echo_v1" Server.handlerA
      Server.handlerB rfl).2 (by simp [Server.Router.new])⟩

/-- Claim C9: a request frame with `u64` length 0 and no payload bytes
is permitted: `read_exact 0` succeeds with the empty buffer, and —
given a codec whose decode of zero bytes yields its empty value — the
registered handler is invoked on that empty value, whose response is
framed and written back. -/
theorem zero_length_payload {S α β : Type}
    (decReq : List Nat → Except DecErr α)
    (encResp : β → Except EncErr (List Nat))
    (handler : S → α → β) (state : S) (emptyVal : α) (out : List Nat)
    (hdec : decReq [] = .ok emptyVal)
    (henc : encResp (handler state emptyVal) = .ok out) :
    Stream.read_exact USIZE_MAX 0 [] = .ok [] ∧
    Server.TypedHandler.handle decReq encResp handler state (beBytes 8 0) =
      (.ok (), beBytes 8 out.length ++ out) := by
  constructor
  · simp [Stream.read_exact, usize_try_from]
  · have hframe := Server.TypedHandler.handle_frame decReq encResp handler
      state [] (by norm_num)
    simp only [List.length_nil, List.append_nil] at hframe
    rw [hframe]
    simp [hdec, henc]

/-- Witness for the zero-length-payload claim: a concrete codec whose
decode of zero bytes is the value 0, with handler `n ↦ n + 1`. -/
theorem zero_length_payload_witness :
    Stream.read_exact USIZE_MAX 0 [] = .ok [] ∧
    Server.TypedHandler.handle
        (fun bs => if bs = [] then .ok 0 else .error 1)
        (fun n => .ok [n]) (fun (_ : Unit) (n : Nat) => n + 1) () (beBytes 8 0) =
      (.ok (), beBytes 8 1 ++ [1]) :=
  zero_length_payload (fun bs => if bs = [] then .ok 0 else .error 1)
    (fun n => .ok [n]) (fun (_ : Unit) (n : Nat) => n + 1) () 0 [1]
    (by simp) (by simp)

/-- Claim C10: when the handler's response fails to encode, the server
writes zero bytes of the response frame — neither the length header nor
any payload — and the task ends with an `Encoding` error. -/
theorem encoding_failure_writes_nothing {S α β : Type}
    (decReq : List Nat → Except DecErr α)
    (encResp : β → Except EncErr (List Nat))
    (handler : S → α → β) (state : S) (payload : List Nat) (r : α)
    (e : EncErr)
    (hlen : payload.length < 2 ^ 64)
    (hdec : decReq payload = .ok r)
    (henc : encResp (handler state r) = .error e) :
    Server.TypedHandler.handle decReq encResp handler state
        (beBytes 8 payload.length ++ payload) =
      (.error (.encoding e), []) := by
  rw [Server.TypedHandler.handle_frame decReq encResp handler state payload
    hlen]
  simp [hdec, henc]

/-- Witness for the encoding-failure claim: a handler whose response
encoder always fails with error 7 writes nothing. -/
theorem encoding_failure_writes_nothing_witness :
    Server.TypedHandler.handle (fun _ => .ok 0)
        (fun (_ : Nat) => (.error 7 : Except EncErr (List Nat)))
        (fun (_ : Unit) (n : Nat) => n) () (beBytes 8 2 ++ [9, 9]) =
      (.error (.encoding 7), []) :=
  encoding_failure_writes_nothing (fun _ => .ok 0)
    (fun _ => .error 7) (fun _ n => n) () [9, 9] 0 7 (by norm_num) rfl rfl

/-- Claim C3: `send` performs exactly the sequence connect, write `u32`
route hash, encode request, write `u64` length, write payload bytes,
read `u64` length, read that many bytes, decode; each step's failure is
reported as `Connection`, `Writing(Length)`, `Encoding`,
`Writing(Length)`, `Writing(Payload)`, `Reading(Length)`,
`Reading(Payload)`, `Decoding` respectively, and the trace shows that no
later step runs after a failure. -/
theorem send_order_and_errors {ρ : Type} (typeId : Nat)
    (encodeReq : Except EncErr (List Nat))
    (decodeResp : List Nat → Except DecErr ρ) (w : Client.World) :
    (∀ e, w.connect = .error e →
      Client.send typeId encodeReq decodeResp w =
        (.error (.connection e), [.connect])) ∧
    (∀ e, w.connect = .ok () → w.writeU32 typeId = .error e →
      Client.send typeId encodeReq decodeResp w =
        (.error (.writing .length e), [.connect, .writeU32 typeId])) ∧
    (∀ e, w.connect = .ok () → w.writeU32 typeId = .ok () →
      encodeReq = .error e →
      Client.send typeId encodeReq decodeResp w =
        (.error (.encoding e), [.connect, .writeU32 typeId, .encode])) ∧
    (∀ e bs, w.connect = .ok () → w.writeU32 typeId = .ok () →
      encodeReq = .ok bs → w.writeU64 bs.length = .error e →
      Client.send typeId encodeReq decodeResp w =
        (.error (.writing .length e),
         [.connect, .writeU32 typeId, .encode, .writeU64 bs.length])) ∧
    (∀ e bs, w.connect = .ok () → w.writeU32 typeId = .ok () →
      encodeReq = .ok bs → w.writeU64 bs.length = .ok () →
      w.writeAll bs = .error e →
      Client.send typeId encodeReq decodeResp w =
        (.error (.writing .payload e),
         [.connect, .writeU32 typeId, .encode, .writeU64 bs.length,
          .writeAll bs])) ∧
    (∀ e bs, w.connect = .ok () → w.writeU32 typeId = .ok () →
      encodeReq = .ok bs → w.writeU64 bs.length = .ok () →
      w.writeAll bs = .ok () → w.readU64 = .error e →
      Client.send typeId encodeReq decodeResp w =
        (.error (.reading .length e),
         [.connect, .writeU32 typeId, .encode, .writeU64 bs.length,
          .writeAll bs, .readU64])) ∧
    (∀ e bs len, w.connect = .ok () → w.writeU32 typeId = .ok () →
      encodeReq = .ok bs → w.writeU64 bs.length = .ok () →
      w.writeAll bs = .ok () → w.readU64 = .ok len →
      w.readExact len = .error e →
      Client.send typeId encodeReq decodeResp w =
        (.error (.reading .payload e),
         [.connect, .writeU32 typeId, .encode, .writeU64 bs.length,
          .writeAll bs, .readU64, .readExact len])) ∧
    (∀ bs len rbs, w.connect = .ok () → w.writeU32 typeId = .ok () →
      encodeReq = .ok bs → w.writeU64 bs.length = .ok () →
      w.writeAll bs = .ok () → w.readU64 = .ok len →
      w.readExact len = .ok rbs →
      Client.send typeId encodeReq decodeResp w =
        ((match decodeResp rbs with
          | .error e => .error (.decoding e)
          | .ok v => .ok v),
         [.connect, .writeU32 typeId, .encode, .writeU64 bs.length,
          .writeAll bs, .readU64, .readExact len, .decode rbs])) := by
  refine ⟨?_, ?_, ?_, ?_, ?_, ?_, ?_, ?_⟩
  · intro e h1
    simp [Client.send, h1]
  · intro e h1 h2
    simp [Client.send, h1, h2]
  · intro e h1 h2 h3
    simp [Client.send, h1, h2, h3]
  · intro e bs h1 h2 h3 h4
    simp [Client.send, h1, h2, h3, h4]
  · intro e bs h1 h2 h3 h4 h5
    simp [Client.send, h1, h2, h3, h4, h5]
  · intro e bs h1 h2 h3 h4 h5 h6
    simp [Client.send, h1, h2, h3, h4, h5, h6]
  · intro e bs len h1 h2 h3 h4 h5 h6 h7
    simp [Client.send, h1, h2, h3, h4, h5, h6, h7]
  · intro bs len rbs h1 h2 h3 h4 h5 h6 h7
    simp [Client.send, h1, h2, h3, h4, h5, h6, h7]

/-- A concrete world whose connection attempt fails, for the send-order
witness. -/
def Client.refusedWorld : Client.World where
  connect := .error (.other 111)
  writeU32 := fun _ => .ok ()
  writeU64 := fun _ => .ok ()
  writeAll := fun _ => .ok ()
  readU64 := .ok 0
  readExact := fun _ => .ok []

/-- Witness for the send-order claim: against a world whose connection
is refused with error code 111, `send` returns the `Connection` error
and its trace is the single connect attempt. -/
theorem send_order_and_errors_witness :
    Client.send 0 (.ok []) (fun _ => (.ok () : Except DecErr Unit))
        Client.refusedWorld =
      (.error (.connection (.other 111)), [.connect]) :=
  (send_order_and_errors 0 (.ok []) (fun _ => .ok ())
    Client.refusedWorld).1 (.other 111) rfl

/-- Claim C5: `serve` returns an error exactly on a bind failure
(`Bind`), a failure of the configured secure-module-init hook
(`NsmConnect`), or the first accept failure (`Accept`, terminal for the
loop, returned rather than swallowed); with no such failure in the
consumed events it is still looping; and the spawned tasks' outcomes —
including errors and panics — never influence its result. -/
theorem serve_termination (bindRes : Except IOErr Unit)
    (nsmHook : Option (Except IOErr Unit))
    (accepts : List Server.AcceptEvent) :
    (∀ e, bindRes = .error e →
      Server.serve bindRes nsmHook accepts = .failed (.bind e)) ∧
    (∀ e, bindRes = .ok () → nsmHook = some (.error e) →
      Server.serve bindRes nsmHook accepts = .failed (.nsmConnect e)) ∧
    (∀ front e back, bindRes = .ok () →
      (nsmHook = none ∨ nsmHook = some (.ok ())) →
      accepts = front ++ .error e :: back →
      (∀ x ∈ front, ∃ t, x = .ok t) →
      Server.serve bindRes nsmHook accepts = .failed (.accept e)) ∧
    (bindRes = .ok () → (nsmHook = none ∨ nsmHook = some (.ok ())) →
      (∀ x ∈ accepts, ∃ t, x = .ok t) →
      Server.serve bindRes nsmHook accepts = .pending) ∧
    (∀ accepts', List.Forall₂ Server.AcceptEvent.sameStatus accepts accepts' →
      Server.serve bindRes nsmHook accepts =
        Server.serve bindRes nsmHook accepts') := by
  refine ⟨?_, ?_, ?_, ?_, ?_⟩
  · intro e h1
    simp [Server.serve, h1]
  · intro e h1 h2
    simp [Server.serve, h1, h2]
  · intro front e back h1 h2 h3 h4
    subst h1; subst h3
    rcases h2 with h2 | h2 <;>
      simp [Server.serve, h2, Server.serveLoop_first_error front e back h4]
  · intro h1 h2 h3
    subst h1
    rcases h2 with h2 | h2 <;>
      simp [Server.serve, h2, Server.serveLoop_all_ok accepts h3]
  · intro accepts' hsame
    cases bindRes with
    | error e => rfl
    | ok _ =>
      match nsmHook with
      | none => exact Server.serveLoop_sameStatus accepts accepts' hsame
      | some (.error e) => rfl
      | some (.ok _) => exact Server.serveLoop_sameStatus accepts accepts' hsame

/-- Witness for the serve-termination claim: with a successful bind, no
secure-module hook, one accepted connection whose task panics and then a
failed accept, `serve` returns the `Accept` error. -/
theorem serve_termination_witness :
    Server.serve (.ok ()) none [.ok .panicked, .error .eof] =
      .failed (.accept .eof) :=
  (serve_termination (.ok ()) none [.ok .panicked, .error .eof]).2.2.1
    [.ok .panicked] .eof [] rfl (Or.inl rfl) rfl (by simp)

/-- Claim C8: on every exit path of `send` and of a server connection
task — normal completion, error, or panic — the stream's `Drop`
implementation initiates a full-duplex shutdown before the storage is
released, and a failure of that best-effort shutdown is swallowed: the
events and the primary result are identical whatever the shutdown
result is, so it never replaces or masks the outcome. -/
theorem scoped_stream_release {ρ ε : Type} (exitPath : ExitKind ρ ε)
    (sr sr' : Except IOErr Unit) (typeId : Nat)
    (encodeReq : Except EncErr (List Nat))
    (decodeResp : List Nat → Except DecErr ρ) (w : Client.World) :
    Stream.dropShutdown sr = [.shutdown .both] ∧
    scopedExit exitPath sr = (exitPath, [.shutdown .both]) ∧
    scopedExit exitPath sr = scopedExit exitPath sr' ∧
    (Client.send_scoped typeId encodeReq decodeResp w sr).1 =
      Client.send typeId encodeReq decodeResp w ∧
    Client.send_scoped typeId encodeReq decodeResp w sr =
      Client.send_scoped typeId encodeReq decodeResp w sr' ∧
    (Client.send_scoped typeId encodeReq decodeResp w sr).2 =
      [.shutdown .both] :=
  ⟨rfl, rfl, rfl, rfl, rfl, rfl⟩

/-- Claim C1: for a codec that is lossless on the request and response
values involved, a client `send` of `r` against a server whose router
has the corresponding typed handler registered produces exactly the
request frame on the wire; the server dispatches it, invokes the handler
on `(state, r)`, and replies with the frame of the encoding `ub` of
`u = handler state r`; and the client, reading that reply, returns
`Ok u`, the bytes it decodes (recorded in its trace) being exactly the
bytes `ub` the server encoded. -/
theorem round_trip {S α β : Type}
    (encReq : α → Except EncErr (List Nat))
    (decReq : List Nat → Except DecErr α)
    (encResp : β → Except EncErr (List Nat))
    (decResp : List Nat → Except DecErr β)
    (handler : S → α → β) (router : Server.Router S) (rid : String)
    (r : α) (u : β) (rb ub : List Nat)
    (hencr : encReq r = .ok rb) (hrblen : rb.length < 2 ^ 64)
    (hdecr : decReq rb = .ok r)
    (hu : handler router.state r = u)
    (hencu : encResp u = .ok ub) (hublen : ub.length < 2 ^ 64)
    (hdecu : decResp ub = .ok u)
    (hroute : Server.findRoute (type_id rid) router.routes =
      some (Server.TypedHandler.handle decReq encResp handler)) :
    Server.handle_connection router
        (beBytes 4 (type_id rid) ++ (beBytes 8 rb.length ++ rb)) =
      (.ok (), beBytes 8 ub.length ++ ub) ∧
    Client.send (type_id rid) (encReq r) decResp
        (Client.wireWorld (beBytes 8 ub.length ++ ub)) =
      (.ok u,
       [.connect, .writeU32 (type_id rid), .encode, .writeU64 rb.length,
        .writeAll rb, .readU64, .readExact ub.length, .decode ub]) ∧
    Client.writtenBytes
        (Client.send (type_id rid) (encReq r) decResp
          (Client.wireWorld (beBytes 8 ub.length ++ ub))).2 =
      beBytes 4 (type_id rid) ++ (beBytes 8 rb.length ++ rb) := by
  have hk : type_id rid < 2 ^ 32 :=
    fnv1a_foldl_lt (utf8Bytes rid) 2166136261 (by norm_num)
  have hserver : Server.handle_connection router
      (beBytes 4 (type_id rid) ++ (beBytes 8 rb.length ++ rb)) =
      (.ok (), beBytes 8 ub.length ++ ub) := by
    rw [Server.handle_connection_found router (type_id rid) hk
      (beBytes 8 rb.length ++ rb) _ hroute]
    rw [Server.TypedHandler.handle_frame decReq encResp handler
      router.state rb hrblen]
    simp [hdecr, hu, hencu]
  have hlen8 : (beBytes 8 ub.length).length = 8 := beBytes_length 8 _
  have htake : (beBytes 8 ub.length ++ ub).take 8 = beBytes 8 ub.length :=
    List.take_left' hlen8
  have hdrop : (beBytes 8 ub.length ++ ub).drop 8 = ub :=
    List.drop_left' hlen8
  have hread64 : (Client.wireWorld (beBytes 8 ub.length ++ ub)).readU64 =
      .ok ub.length := by
    have h8 : 8 ≤ (beBytes 8 ub.length).length + ub.length := by omega
    simp [Client.wireWorld, h8, htake, deBE_beBytes64 _ hublen]
  have hreadx : (Client.wireWorld (beBytes 8 ub.length ++ ub)).readExact
      ub.length = .ok ub := by
    have hle : ub.length ≤ USIZE_MAX := by
      simp only [USIZE_MAX]; omega
    simp [Client.wireWorld, hdrop, Stream.read_exact, usize_try_from, hle]
  have hconn : (Client.wireWorld (beBytes 8 ub.length ++ ub)).connect =
      .ok () := rfl
  have hw32 : ∀ n, (Client.wireWorld (beBytes 8 ub.length ++ ub)).writeU32 n =
      .ok () := fun _ => rfl
  have hw64 : ∀ n, (Client.wireWorld (beBytes 8 ub.length ++ ub)).writeU64 n =
      .ok () := fun _ => rfl
  have hwall : ∀ bs, (Client.wireWorld (beBytes 8 ub.length ++ ub)).writeAll
      bs = .ok () := fun _ => rfl
  have hclient : Client.send (type_id rid) (encReq r) decResp
      (Client.wireWorld (beBytes 8 ub.length ++ ub)) =
      (.ok u,
       [.connect, .writeU32 (type_id rid), .encode, .writeU64 rb.length,
        .writeAll rb, .readU64, .readExact ub.length, .decode ub]) := by
    simp [Client.send, hconn, hw32, hw64, hwall, hencr, hread64, hreadx,
      hdecu]
  refine ⟨hserver, hclient, ?_⟩
  rw [hclient]
  simp [Client.writtenBytes]

/-- The request/response encoder of the round-trip witness: a number
encodes to the singleton byte list holding it. -/
def witEnc : Nat → Except EncErr (List Nat) := fun n => .ok [n]

/-- The matching decoder: a singleton byte list decodes to its element;
anything else fails. -/
def witDec : List Nat → Except DecErr Nat := fun bs =>
  match bs with
  | [n] => .ok n
  | _ => .error 0

/-- A router with the increment handler registered under "echo_v1". -/
def witRouter : Server.Router Unit :=
  (Server.Router.new).route "echo_v1"
    (Server.TypedHandler.handle witDec witEnc (fun _ n => n + 1))

/-- Witness for the round-trip claim: sending 7 to the increment
handler returns `Ok 8`, decoding exactly the byte `[8]` the server
encoded. -/
theorem round_trip_witness :
    Client.send (type_id "echo_v1") (witEnc 7) witDec
        (Client.wireWorld (beBytes 8 1 ++ [8])) =
      (.ok 8,
       [.connect, .writeU32 (type_id "echo_v1"), .encode, .writeU64 1,
        .writeAll [7], .readU64, .readExact 1, .decode [8]]) := by
  have h := round_trip witEnc witDec witEnc witDec (fun _ n => n + 1)
    witRouter "echo_v1" 7 8 [7] [8] rfl (by norm_num) rfl rfl rfl
    (by norm_num) rfl
    (by simp [witRouter, Server.Router.route, Server.Router.new,
      Server.insertRoute, Server.findRoute])
  simpa using h.2.1
